import Mathlib

/-!
# Verification of the work-item lifecycle and browser-session orchestration core

Shallow embedding, in Lean 4, of the queue/state-machine, retry policy,
session/cookie persistence, session-validity heuristic, shared-driver
resource manager and API handler of the repository, together with proofs
and refutations of the behavioural claims made about them.

Each definition carries a comment naming the Python source location it is
translated from.  Timestamps are modelled as natural numbers (or integers
where the source compares against a clock), SQL rows as structures, and
Python exceptions as `Except` values.
-/

namespace Bots

/-! ## Work queue and state machine

Source: `src/db/models.py` (status constants and the `eligibility_requests`,
`eligibility_results`, `eligibility_benefit_lines` tables) and
`src/db/repo_eligibility.py` (the repository operations). -/

/-- Status values of a work item, from `EligibilityRequestStatus` in
`src/db/models.py` (the `ClaimStatusQueryStatus` and `AppealsQueryStatus`
classes list the same six values). -/
inductive Status where
  | PENDING
  | IN_PROGRESS
  | SUCCESS
  | FAILED_PORTAL
  | FAILED_VALIDATION
  | FAILED_TECH
deriving DecidableEq, Repr

/-- One row of `eligibility_requests` (`EligibilityRequest` in
`src/db/models.py`).  Only the columns the claims speak about are kept:
`id`, `member_id` (standing for the request payload), `status`, `attempts`,
`last_error_code`, `last_error_message` and `created_at`.  The table has no
`completed_at` column (see `models.py` lines 129-165 and the
`001_initial_schema.py` migration). -/
structure Req where
  id : Nat
  memberId : String
  status : Status
  attempts : Nat
  lastErrorCode : Option String
  lastErrorMessage : Option String
  createdAt : Nat
deriving DecidableEq, Repr

/-- One row of `eligibility_results` (`EligibilityResult` in
`src/db/models.py`): result header keyed by `eligibility_request_id`. -/
structure ResRow where
  id : Nat
  requestId : Nat
  coverageStatus : Option String
deriving DecidableEq, Repr

/-- One row of `eligibility_benefit_lines` keyed by
`eligibility_result_id` (`EligibilityBenefitLine` in `src/db/models.py`). -/
structure BenefitRow where
  resultId : Nat
  benefitCategory : String
deriving DecidableEq, Repr

/-- The domain result passed to `save_result`
(`domain.EligibilityResult`): a coverage summary plus benefit lines. -/
structure DomainResult where
  coverageStatus : Option String
  benefitLines : List String
deriving DecidableEq, Repr

/-- Database state for the eligibility workflow: the three tables plus
autoincrement counters for the two primary keys. -/
structure Db where
  requests : List Req
  results : List ResRow
  benefits : List BenefitRow
  nextReqId : Nat
  nextResId : Nat
deriving DecidableEq, Repr

/-- The empty database. -/
def Db.empty : Db := ⟨[], [], [], 1, 1⟩

/-- `enqueue_eligibility_request` (`src/db/repo_eligibility.py` lines
102-146): inserts a new row with `status=PENDING, attempts=0`. -/
def enqueue (db : Db) (memberId : String) (now : Nat) : Nat × Db :=
  (db.nextReqId,
   { db with
       requests := db.requests ++
         [⟨db.nextReqId, memberId, .PENDING, 0, none, none, now⟩],
       nextReqId := db.nextReqId + 1 })

/-- Whether a row is selectable by the dequeue query: `status == PENDING`
and not locked by another claimant (`with_for_update(skip_locked=True)`). -/
def claimable (locked : List Nat) (r : Req) : Bool :=
  r.status = .PENDING && !(locked.contains r.id)

/-- Pick the row with minimal `created_at` (the `ORDER BY created_at ASC
LIMIT 1` of `get_next_pending_request`); among equal timestamps the first
row in table order is taken. -/
def pickOldest (c : Req) (cs : List Req) : Req :=
  cs.foldl (fun b r => if r.createdAt < b.createdAt then r else b) c

/-- `get_next_pending_request` (`src/db/repo_eligibility.py` lines
149-183): select the oldest claimable `PENDING` row, skipping rows in
`locked`; if none, return `none`; otherwise set its status to
`IN_PROGRESS`, increment `attempts`, and flush — one transaction, so the
returned state reflects both the selection and the update. -/
def getNextPending (db : Db) (locked : List Nat) : Option Req × Db :=
  match db.requests.filter (claimable locked) with
  | [] => (none, db)
  | c :: cs =>
      let orig := pickOldest c cs
      let upd : Req := { orig with status := .IN_PROGRESS, attempts := orig.attempts + 1 }
      (some upd,
       { db with requests := db.requests.map (fun r => if r.id = orig.id then upd else r) })

/-- `mark_failed` (`src/db/repo_eligibility.py` lines 186-210): `UPDATE
eligibility_requests SET status, last_error_code, last_error_message WHERE
id = request_id`. -/
def markFailed (db : Db) (requestId : Nat) (errorCode : Option String)
    (errorMessage : String) (status : Status) : Db :=
  { db with
      requests := db.requests.map (fun r =>
        if r.id = requestId then
          { r with status := status, lastErrorCode := errorCode,
                   lastErrorMessage := some errorMessage }
        else r) }

/-- `save_result` (`src/db/repo_eligibility.py` lines 213-263): insert the
result header, insert one benefit-line row per domain benefit line, then
`UPDATE eligibility_requests SET status=SUCCESS, last_error_code=NULL,
last_error_message=NULL WHERE id = request_id` — all flushed in the same
transaction.  No `completed_at` is written (the table has no such
column). -/
def saveResult (db : Db) (requestId : Nat) (result : DomainResult) : Db :=
  { db with
      results := db.results ++ [⟨db.nextResId, requestId, result.coverageStatus⟩],
      benefits := db.benefits ++ result.benefitLines.map (fun b => ⟨db.nextResId, b⟩),
      nextResId := db.nextResId + 1,
      requests := db.requests.map (fun r =>
        if r.id = requestId then
          { r with status := .SUCCESS, lastErrorCode := none, lastErrorMessage := none }
        else r) }

/-- One queue operation, as exposed by the repository:
`enqueue_eligibility_request`, `get_next_pending_request` (with no
concurrent claimant, so no row is locked), `save_result`, `mark_failed`. -/
inductive QOp where
  | enq (memberId : String) (now : Nat)
  | deq
  | save (requestId : Nat) (result : DomainResult)
  | fail (requestId : Nat) (code : Option String) (msg : String) (st : Status)
deriving Repr

/-- Effect of one queue operation on the database state. -/
def step (db : Db) : QOp → Db
  | .enq m now => (enqueue db m now).2
  | .deq => (getNextPending db []).2
  | .save i res => saveResult db i res
  | .fail i c m st => markFailed db i c m st

/-- Row-wise monotonicity of the `attempts` column: every row of `old`
survives at its position in `new` with the same `id` and an `attempts`
value at least as large. -/
def AttemptsMono (old new : List Req) : Prop :=
  ∀ i, (h : i < old.length) → ∃ h' : i < new.length,
    (new.get ⟨i, h'⟩).id = (old.get ⟨i, h⟩).id ∧
    (old.get ⟨i, h⟩).attempts ≤ (new.get ⟨i, h'⟩).attempts

lemma pickOldest_mem (c : Req) (cs : List Req) : pickOldest c cs ∈ c :: cs := by
  induction cs generalizing c with
  | nil => simp [pickOldest]
  | cons r rs ih =>
    have h := ih (if r.createdAt < c.createdAt then r else c)
    simp only [pickOldest, List.foldl_cons] at h ⊢
    rcases List.mem_cons.1 h with h1 | h1
    · rw [h1]
      by_cases hc : r.createdAt < c.createdAt <;> simp [hc]
    · simp [List.mem_cons, h1]

lemma pickOldest_le (c : Req) (cs : List Req) :
    ∀ r ∈ c :: cs, (pickOldest c cs).createdAt ≤ r.createdAt := by
  induction cs generalizing c with
  | nil =>
    intro r hr
    rw [List.mem_singleton.1 hr]
    simp [pickOldest]
  | cons x xs ih =>
    intro r hr
    simp only [pickOldest, List.foldl_cons]
    have hb : (if x.createdAt < c.createdAt then x else c).createdAt ≤ c.createdAt ∧
        (if x.createdAt < c.createdAt then x else c).createdAt ≤ x.createdAt := by
      by_cases hc : x.createdAt < c.createdAt <;> simp [hc] <;> omega
    have hhead := ih (if x.createdAt < c.createdAt then x else c)
        (if x.createdAt < c.createdAt then x else c) (List.mem_cons_self _ _)
    simp only [pickOldest] at hhead
    rcases List.mem_cons.1 hr with rfl | hr1
    · exact le_trans hhead hb.1
    · rcases List.mem_cons.1 hr1 with rfl | hr2
      · exact le_trans hhead hb.2
      · exact ih _ r (List.mem_cons_of_mem _ hr2)

lemma claimable_nil (r : Req) : claimable [] r = true ↔ r.status = .PENDING := by
  simp [claimable]

lemma attemptsMono_map {l : List Req} {f : Req → Req}
    (hid : ∀ r ∈ l, (f r).id = r.id)
    (hat : ∀ r ∈ l, r.attempts ≤ (f r).attempts) :
    AttemptsMono l (l.map f) := by
  intro i h
  refine ⟨by simpa using h, ?_, ?_⟩
  · rw [List.get_map]
    exact hid _ (List.get_mem l _ _)
  · rw [List.get_map]
    exact hat _ (List.get_mem l _ _)

lemma attemptsMono_append (l t : List Req) : AttemptsMono l (l ++ t) := by
  intro i h
  have h' : i < (l ++ t).length := by simp only [List.length_append]; omega
  refine ⟨h', ?_, ?_⟩
  · rw [List.get_append _ h]
  · rw [List.get_append _ h]

lemma getNextPending_eq_nil {db : Db} (h : db.requests.filter (claimable []) = []) :
    getNextPending db [] = (none, db) := by
  unfold getNextPending
  rw [h]

lemma getNextPending_eq_cons {db : Db} {c : Req} {cs : List Req}
    (h : db.requests.filter (claimable []) = c :: cs) :
    getNextPending db [] =
      (some { pickOldest c cs with status := .IN_PROGRESS,
                                   attempts := (pickOldest c cs).attempts + 1 },
       { db with requests := db.requests.map (fun r =>
           if r.id = (pickOldest c cs).id then
             { pickOldest c cs with status := .IN_PROGRESS,
                                    attempts := (pickOldest c cs).attempts + 1 }
           else r) }) := by
  unfold getNextPending
  rw [h]

/-- C1: a single call to `get_next_pending_request` (no row locked by
another claimant) returns `none` exactly when no `PENDING` row exists;
otherwise it returns the oldest `PENDING` row with status set to
`IN_PROGRESS` and `attempts` incremented by exactly 1, the database
reflecting that update in the same transaction; and no queue operation
ever decreases the `attempts` of a row (rows having distinct primary
keys). -/
theorem C1_dequeue_correct :
    (∀ db : Db, (getNextPending db []).1 = none ↔ ∀ r ∈ db.requests, r.status ≠ .PENDING)
  ∧ (∀ (db : Db) (u : Req), (getNextPending db []).1 = some u →
      u.status = .IN_PROGRESS ∧
      ∃ orig, orig ∈ db.requests ∧ orig.status = .PENDING ∧
        (∀ p ∈ db.requests, p.status = .PENDING → orig.createdAt ≤ p.createdAt) ∧
        u = { orig with status := .IN_PROGRESS, attempts := orig.attempts + 1 } ∧
        (getNextPending db []).2 =
          { db with requests := db.requests.map (fun r => if r.id = orig.id then u else r) })
  ∧ (∀ (db : Db) (op : QOp), (db.requests.map Req.id).Nodup →
      AttemptsMono db.requests (step db op).requests) := by
  refine ⟨?_, ?_, ?_⟩
  · intro db
    cases h : db.requests.filter (claimable []) with
    | nil =>
      rw [getNextPending_eq_nil h]
      constructor
      · intro _ r hr hst
        have hm : r ∈ db.requests.filter (claimable []) :=
          List.mem_filter.2 ⟨hr, (claimable_nil r).2 hst⟩
        rw [h] at hm
        exact absurd hm (List.not_mem_nil r)
      · intro _
        rfl
    | cons c cs =>
      rw [getNextPending_eq_cons h]
      constructor
      · intro hc
        exact absurd hc (by simp)
      · intro hall
        have hc : c ∈ db.requests.filter (claimable []) := by
          rw [h]
          exact List.mem_cons_self c cs
        obtain ⟨hmem, hcl⟩ := List.mem_filter.1 hc
        exact absurd ((claimable_nil c).1 hcl) (hall c hmem)
  · intro db u hu
    cases h : db.requests.filter (claimable []) with
    | nil =>
      rw [getNextPending_eq_nil h] at hu
      exact absurd hu (by simp)
    | cons c cs =>
      rw [getNextPending_eq_cons h] at hu
      obtain rfl := (Option.some.inj hu).symm
      have horigmem' : pickOldest c cs ∈ db.requests.filter (claimable []) := by
        rw [h]
        exact pickOldest_mem c cs
      obtain ⟨hmem, hcl⟩ := List.mem_filter.1 horigmem'
      refine ⟨rfl, pickOldest c cs, hmem, (claimable_nil _).1 hcl, ?_, rfl, ?_⟩
      · intro p hp hpst
        have hpf : p ∈ db.requests.filter (claimable []) :=
          List.mem_filter.2 ⟨hp, (claimable_nil p).2 hpst⟩
        rw [h] at hpf
        exact pickOldest_le c cs p hpf
      · rw [getNextPending_eq_cons h]
  · intro db op hnodup
    cases op with
    | enq m now =>
      exact attemptsMono_append _ _
    | deq =>
      cases h : db.requests.filter (claimable []) with
      | nil =>
        have heq := getNextPending_eq_nil h
        simp only [step, heq]
        intro i hi
        exact ⟨hi, rfl, le_rfl⟩
      | cons c cs =>
        have heq := getNextPending_eq_cons h
        simp only [step, heq]
        have horigmem : pickOldest c cs ∈ db.requests := by
          have hm : pickOldest c cs ∈ db.requests.filter (claimable []) := by
            rw [h]
            exact pickOldest_mem c cs
          exact (List.mem_filter.1 hm).1
        refine attemptsMono_map ?_ ?_
        · intro r hr
          by_cases hid : r.id = (pickOldest c cs).id <;> simp [hid]
        · intro r hr
          by_cases hid : r.id = (pickOldest c cs).id
          · have hreq : r = pickOldest c cs :=
              List.inj_on_of_nodup_map hnodup hr horigmem hid
            rw [hreq]
            simp
          · simp [hid]
    | save i res =>
      refine attemptsMono_map ?_ ?_ <;> intro r hr <;>
        by_cases hid : r.id = i <;> simp [hid]
    | fail i c m st =>
      refine attemptsMono_map ?_ ?_ <;> intro r hr <;>
        by_cases hid : r.id = i <;> simp [hid]

/-- Example queue state: two `PENDING` rows, the second one older. -/
def db1 : Db :=
  ⟨[⟨1, "AB123", .PENDING, 0, none, none, 5⟩, ⟨2, "CD999", .PENDING, 2, none, none, 3⟩],
   [], [], 3, 1⟩

/-- The row `db1`'s dequeue is expected to return: the older row, now
`IN_PROGRESS` with `attempts` bumped from 2 to 3. -/
def upd1 : Req := ⟨2, "CD999", .IN_PROGRESS, 3, none, none, 3⟩

/-- Witness for C1 at the concrete state `db1`. -/
theorem C1_dequeue_correct_witness :
    (upd1.status = .IN_PROGRESS ∧
      ∃ orig, orig ∈ db1.requests ∧ orig.status = .PENDING ∧
        (∀ p ∈ db1.requests, p.status = .PENDING → orig.createdAt ≤ p.createdAt) ∧
        upd1 = { orig with status := .IN_PROGRESS, attempts := orig.attempts + 1 } ∧
        (getNextPending db1 []).2 =
          { db1 with requests := db1.requests.map (fun r => if r.id = orig.id then upd1 else r) }) ∧
    AttemptsMono db1.requests (step db1 .deq).requests :=
  ⟨C1_dequeue_correct.2.1 db1 upd1 (by decide),
   C1_dequeue_correct.2.2 db1 .deq (by decide)⟩

/-! ## Lifecycle invariants (C2)

The repository functions themselves do not guard the current status of the
row they update (`mark_failed` and `save_result` update whatever row the
caller names), so the §4.1 state machine is only respected by sequences
that follow the orchestrator's calling discipline: completion operations
are applied to a row that is currently `IN_PROGRESS`, and `mark_failed` is
given one of the three `FAILED_*` statuses. -/

/-- Status of the (unique) row with a given id, `none` if absent. -/
def statusOf (db : Db) (i : Nat) : Option Status :=
  (db.requests.find? (fun r => r.id = i)).map Req.status

/-- Number of `eligibility_results` rows linked to request `i`. -/
def resultCount (db : Db) (i : Nat) : Nat :=
  (db.results.filter (fun res => res.requestId = i)).length

/-- The orchestrator's calling discipline (`src/bots` together with
`src/scripts/run_eligibility.py`): `save_result` and `mark_failed` are
invoked only for the row just dequeued — a row currently `IN_PROGRESS` —
and `mark_failed` only ever receives one of the three failure statuses. -/
def allowedOp (db : Db) : QOp → Bool
  | .enq _ _ => true
  | .deq => true
  | .save i _ => db.requests.any (fun r => r.id = i && r.status = .IN_PROGRESS)
  | .fail i _ _ st =>
      (st = .FAILED_PORTAL || st = .FAILED_VALIDATION || st = .FAILED_TECH) &&
      db.requests.any (fun r => r.id = i && r.status = .IN_PROGRESS)

/-- Run a sequence of queue operations, failing if one breaks the calling
discipline. -/
def runGood : Db → List QOp → Option Db
  | db, [] => some db
  | db, op :: ops => if allowedOp db op then runGood (step db op) ops else none

/-- The §4.1 transition edges: `PENDING → IN_PROGRESS` and
`IN_PROGRESS → {SUCCESS, FAILED_PORTAL, FAILED_VALIDATION, FAILED_TECH}`. -/
def edgeOk : Status → Status → Bool
  | .PENDING, .IN_PROGRESS => true
  | .IN_PROGRESS, .SUCCESS => true
  | .IN_PROGRESS, .FAILED_PORTAL => true
  | .IN_PROGRESS, .FAILED_VALIDATION => true
  | .IN_PROGRESS, .FAILED_TECH => true
  | _, _ => false

/-- Row-wise transition legality of one step: every old row survives at
its position with the same id, and its status either stays put or moves
along a §4.1 edge. -/
def StepEdges (old new : List Req) : Prop :=
  ∀ i, (h : i < old.length) → ∃ h' : i < new.length,
    (new.get ⟨i, h'⟩).id = (old.get ⟨i, h⟩).id ∧
    ((new.get ⟨i, h'⟩).status = (old.get ⟨i, h⟩).status ∨
      edgeOk (old.get ⟨i, h⟩).status (new.get ⟨i, h'⟩).status = true)

/-- Reachable-state invariant: primary keys are unique and below the
autoincrement counter, result rows reference keys below the counter, and
a row has exactly one linked result exactly when its status is `SUCCESS`. -/
structure Inv (db : Db) : Prop where
  idsNodup : (db.requests.map Req.id).Nodup
  idsLt : ∀ r ∈ db.requests, r.id < db.nextReqId
  resLt : ∀ res ∈ db.results, res.requestId < db.nextReqId
  resIff : ∀ r ∈ db.requests, resultCount db r.id = (if r.status = .SUCCESS then 1 else 0)

lemma map_id_of_preserving {l : List Req} {f : Req → Req}
    (hid : ∀ r ∈ l, (f r).id = r.id) : (l.map f).map Req.id = l.map Req.id := by
  induction l with
  | nil => rfl
  | cons x xs ih =>
    simp only [List.map_cons, List.cons.injEq]
    exact ⟨hid x (List.mem_cons_self x xs),
           ih (fun r hr => hid r (List.mem_cons_of_mem x hr))⟩

lemma resultCount_map_requests (db : Db) (f : Req → Req) (j : Nat) :
    resultCount { db with requests := db.requests.map f } j = resultCount db j := rfl

lemma resultCount_save (db : Db) (i : Nat) (res : DomainResult) (j : Nat) :
    resultCount (saveResult db i res) j = resultCount db j + (if i = j then 1 else 0) := by
  simp only [resultCount, saveResult, List.filter_append]
  by_cases h : i = j <;> simp [h]

lemma mem_unique_id {db : Db} (hn : (db.requests.map Req.id).Nodup)
    {r w : Req} (hr : r ∈ db.requests) (hw : w ∈ db.requests) (h : r.id = w.id) :
    r = w :=
  List.inj_on_of_nodup_map hn hr hw h

lemma anyInProgress {db : Db} {i : Nat}
    (h : db.requests.any (fun r => r.id = i && r.status = .IN_PROGRESS) = true) :
    ∃ w ∈ db.requests, w.id = i ∧ w.status = .IN_PROGRESS := by
  obtain ⟨w, hw, hprop⟩ := List.any_eq_true.1 h
  simp only [Bool.and_eq_true, decide_eq_true_eq] at hprop
  exact ⟨w, hw, hprop.1, hprop.2⟩

lemma inv_enq {db : Db} (hinv : Inv db) (m : String) (now : Nat) :
    Inv (step db (.enq m now)) := by
  constructor
  · simp only [step, enqueue, List.map_append, List.map_cons, List.map_nil]
    rw [List.nodup_append]
    refine ⟨hinv.idsNodup, List.nodup_singleton _, ?_⟩
    intro a ha hb
    rw [List.mem_singleton] at hb
    subst hb
    obtain ⟨r, hr, hrid⟩ := List.mem_map.1 ha
    exact absurd hrid (Nat.ne_of_lt (hinv.idsLt r hr))
  · intro r hr
    simp only [step, enqueue] at hr ⊢
    rcases List.mem_append.1 hr with h1 | h1
    · exact Nat.lt_succ_of_lt (hinv.idsLt r h1)
    · rw [List.mem_singleton] at h1
      subst h1
      exact Nat.lt_succ_self _
  · intro res hres
    exact Nat.lt_succ_of_lt (hinv.resLt res hres)
  · intro r hr
    simp only [step, enqueue] at hr
    rcases List.mem_append.1 hr with h1 | h1
    · exact hinv.resIff r h1
    · rw [List.mem_singleton] at h1
      subst h1
      simp only [resultCount]
      have : db.results.filter (fun res => res.requestId = db.nextReqId) = [] := by
        rw [List.filter_eq_nil]
        intro res hres
        simp only [decide_eq_true_eq]
        exact Nat.ne_of_lt (hinv.resLt res hres)
      simp [resultCount, step, enqueue, this]

lemma inv_deq {db : Db} (hinv : Inv db) : Inv (step db .deq) := by
  cases h : db.requests.filter (claimable []) with
  | nil =>
    have heq := getNextPending_eq_nil h
    simp only [step, heq]
    exact hinv
  | cons c cs =>
    have heq := getNextPending_eq_cons h
    have horigmem : pickOldest c cs ∈ db.requests := by
      have hm : pickOldest c cs ∈ db.requests.filter (claimable []) := by
        rw [h]
        exact pickOldest_mem c cs
      exact (List.mem_filter.1 hm).1
    have horigpend : (pickOldest c cs).status = .PENDING := by
      have hm : pickOldest c cs ∈ db.requests.filter (claimable []) := by
        rw [h]
        exact pickOldest_mem c cs
      exact (claimable_nil _).1 (List.mem_filter.1 hm).2
    simp only [step, heq]
    have hid : ∀ r ∈ db.requests,
        ((fun r => if r.id = (pickOldest c cs).id then
            { pickOldest c cs with status := .IN_PROGRESS,
                                   attempts := (pickOldest c cs).attempts + 1 }
          else r) r).id = r.id := by
      intro r _
      by_cases hc : r.id = (pickOldest c cs).id <;> simp [hc]
    constructor
    · rw [map_id_of_preserving hid]
      exact hinv.idsNodup
    · intro r' hr'
      obtain ⟨r, hr, rfl⟩ := List.mem_map.1 hr'
      rw [hid r hr]
      exact hinv.idsLt r hr
    · intro res hres
      exact hinv.resLt res hres
    · intro r' hr'
      obtain ⟨r, hr, rfl⟩ := List.mem_map.1 hr'
      rw [resultCount_map_requests, hid r hr]
      by_cases hc : r.id = (pickOldest c cs).id
      · have hro : r = pickOldest c cs := mem_unique_id hinv.idsNodup hr horigmem hc
        have h0 := hinv.resIff r hr
        have hrst : r.status = .PENDING := by
          rw [hro]
          exact horigpend
        rw [hrst] at h0
        simp at h0
        rw [if_pos hc]
        simpa using h0
      · rw [if_neg hc]
        exact hinv.resIff r hr

lemma inv_save {db : Db} (hinv : Inv db) {i : Nat} {res : DomainResult}
    (ha : allowedOp db (.save i res) = true) : Inv (step db (.save i res)) := by
  obtain ⟨w, hw, hwid, hwst⟩ := anyInProgress ha
  have hid : ∀ r ∈ db.requests,
      ((fun r => if r.id = i then
          { r with status := Status.SUCCESS, lastErrorCode := none, lastErrorMessage := none }
        else r) r).id = r.id := by
    intro r _
    by_cases hc : r.id = i <;> simp [hc]
  constructor
  · show ((db.requests.map _).map Req.id).Nodup
    rw [map_id_of_preserving hid]
    exact hinv.idsNodup
  · intro r' hr'
    obtain ⟨r, hr, rfl⟩ := List.mem_map.1 hr'
    rw [hid r hr]
    exact hinv.idsLt r hr
  · intro resRow hres
    simp only [step, saveResult] at hres
    rcases List.mem_append.1 hres with h1 | h1
    · exact hinv.resLt resRow h1
    · rw [List.mem_singleton] at h1
      subst h1
      exact hwid ▸ hinv.idsLt w hw
  · intro r' hr'
    obtain ⟨r, hr, rfl⟩ := List.mem_map.1 hr'
    rw [hid r hr]
    rw [show resultCount (step db (.save i res)) r.id =
        resultCount db r.id + (if i = r.id then 1 else 0) from resultCount_save db i res r.id]
    by_cases hc : r.id = i
    · have hrw : r = w := mem_unique_id hinv.idsNodup hr hw (by rw [hc, hwid])
      have h0 := hinv.resIff r hr
      have hrst : r.status = .IN_PROGRESS := by
        rw [hrw]
        exact hwst
      rw [hrst] at h0
      simp at h0
      rw [if_pos hc.symm, if_pos hc]
      simp [h0]
    · rw [if_neg (fun hh => hc hh.symm), if_neg hc]
      simpa using hinv.resIff r hr

lemma inv_fail {db : Db} (hinv : Inv db) {i : Nat} {code : Option String}
    {msg : String} {st : Status}
    (ha : allowedOp db (.fail i code msg st) = true) :
    Inv (step db (.fail i code msg st)) := by
  simp only [allowedOp, Bool.and_eq_true] at ha
  obtain ⟨w, hw, hwid, hwst⟩ := anyInProgress ha.2
  have hstne : st ≠ .SUCCESS := by
    intro hcon
    subst hcon
    exact absurd ha.1 (by decide)
  have hid : ∀ r ∈ db.requests,
      ((fun r => if r.id = i then
          { r with status := st, lastErrorCode := code, lastErrorMessage := some msg }
        else r) r).id = r.id := by
    intro r _
    by_cases hc : r.id = i <;> simp [hc]
  constructor
  · show ((db.requests.map _).map Req.id).Nodup
    rw [map_id_of_preserving hid]
    exact hinv.idsNodup
  · intro r' hr'
    obtain ⟨r, hr, rfl⟩ := List.mem_map.1 hr'
    rw [hid r hr]
    exact hinv.idsLt r hr
  · intro resRow hres
    exact hinv.resLt resRow hres
  · intro r' hr'
    obtain ⟨r, hr, rfl⟩ := List.mem_map.1 hr'
    rw [show resultCount (step db (.fail i code msg st)) = resultCount db from rfl]
    rw [hid r hr]
    by_cases hc : r.id = i
    · have hrw : r = w := mem_unique_id hinv.idsNodup hr hw (by rw [hc, hwid])
      have h0 := hinv.resIff r hr
      have hrst : r.status = .IN_PROGRESS := by
        rw [hrw]
        exact hwst
      rw [hrst] at h0
      simp at h0
      rw [if_pos hc]
      show resultCount db r.id = if st = Status.SUCCESS then 1 else 0
      rw [if_neg hstne]
      exact h0
    · rw [if_neg hc]
      exact hinv.resIff r hr

lemma inv_runGood : ∀ (ops : List QOp) (db db' : Db),
    Inv db → runGood db ops = some db' → Inv db' := by
  intro ops
  induction ops with
  | nil =>
    intro db db' hinv h
    simp only [runGood, Option.some.injEq] at h
    exact h ▸ hinv
  | cons op ops ih =>
    intro db db' hinv h
    simp only [runGood] at h
    cases ha : allowedOp db op with
    | false =>
      rw [ha] at h
      simp at h
    | true =>
      rw [ha] at h
      simp only [if_pos] at h
      refine ih _ _ ?_ h
      cases op with
      | enq m now => exact inv_enq hinv m now
      | deq => exact inv_deq hinv
      | save i res => exact inv_save hinv ha
      | fail i c m st => exact inv_fail hinv ha

lemma stepEdges_map {l : List Req} {f : Req → Req}
    (hid : ∀ r ∈ l, (f r).id = r.id)
    (hst : ∀ r ∈ l, (f r).status = r.status ∨ edgeOk r.status (f r).status = true) :
    StepEdges l (l.map f) := by
  intro i h
  refine ⟨by simpa using h, ?_, ?_⟩
  · rw [List.get_map]
    exact hid _ (List.get_mem l _ _)
  · rw [List.get_map]
    exact hst _ (List.get_mem l _ _)

lemma stepEdges_of_allowed {db : Db} (hinv : Inv db) {op : QOp}
    (ha : allowedOp db op = true) :
    StepEdges db.requests (step db op).requests := by
  cases op with
  | enq m now =>
    intro i h
    have h' : i < ((step db (.enq m now)).requests).length := by
      simp only [step, enqueue, List.length_append]
      omega
    refine ⟨h', ?_, Or.inl ?_⟩
    · exact congrArg Req.id (List.get_append _ h)
    · exact congrArg Req.status (List.get_append _ h)
  | deq =>
    cases h : db.requests.filter (claimable []) with
    | nil =>
      have heq := getNextPending_eq_nil h
      simp only [step, heq]
      intro i hi
      exact ⟨hi, rfl, Or.inl rfl⟩
    | cons c cs =>
      have heq := getNextPending_eq_cons h
      have horigmem : pickOldest c cs ∈ db.requests := by
        have hm : pickOldest c cs ∈ db.requests.filter (claimable []) := by
          rw [h]
          exact pickOldest_mem c cs
        exact (List.mem_filter.1 hm).1
      have horigpend : (pickOldest c cs).status = .PENDING := by
        have hm : pickOldest c cs ∈ db.requests.filter (claimable []) := by
          rw [h]
          exact pickOldest_mem c cs
        exact (claimable_nil _).1 (List.mem_filter.1 hm).2
      simp only [step, heq]
      refine stepEdges_map ?_ ?_
      · intro r _
        by_cases hc : r.id = (pickOldest c cs).id <;> simp [hc]
      · intro r hr
        by_cases hc : r.id = (pickOldest c cs).id
        · have hro : r = pickOldest c cs := mem_unique_id hinv.idsNodup hr horigmem hc
          refine Or.inr ?_
          rw [if_pos hc]
          have : r.status = .PENDING := by
            rw [hro]
            exact horigpend
          rw [this]
          rfl
        · rw [if_neg hc]
          exact Or.inl rfl
  | save i res =>
    obtain ⟨w, hw, hwid, hwst⟩ := anyInProgress ha
    refine stepEdges_map ?_ ?_
    · intro r _
      by_cases hc : r.id = i <;> simp [hc]
    · intro r hr
      by_cases hc : r.id = i
      · have hrw : r = w := mem_unique_id hinv.idsNodup hr hw (by rw [hc, hwid])
        refine Or.inr ?_
        rw [if_pos hc]
        have : r.status = .IN_PROGRESS := by
          rw [hrw]
          exact hwst
        rw [this]
        rfl
      · rw [if_neg hc]
        exact Or.inl rfl
  | fail i code msg st =>
    simp only [allowedOp, Bool.and_eq_true] at ha
    obtain ⟨w, hw, hwid, hwst⟩ := anyInProgress ha.2
    have hedge : edgeOk .IN_PROGRESS st = true := by
      have h1 := ha.1
      rcases st <;> first | rfl | exact absurd h1 (by decide)
    refine stepEdges_map ?_ ?_
    · intro r _
      by_cases hc : r.id = i <;> simp [hc]
    · intro r hr
      by_cases hc : r.id = i
      · have hrw : r = w := mem_unique_id hinv.idsNodup hr hw (by rw [hc, hwid])
        refine Or.inr ?_
        rw [if_pos hc]
        have : r.status = .IN_PROGRESS := by
          rw [hrw]
          exact hwst
        rw [this]
        exact hedge
      · rw [if_neg hc]
        exact Or.inl rfl

lemma inv_empty : Inv Db.empty := by
  refine ⟨List.nodup_nil, ?_, ?_, ?_⟩ <;>
    · intro x hx
      exact absurd hx (List.not_mem_nil x)

/-- C2 (amended): for every sequence of queue operations that respects the
orchestrator's calling discipline (`save_result`/`mark_failed` target a row
currently `IN_PROGRESS`, `mark_failed` receives a `FAILED_*` status), every
reachable state links exactly one result row to an item exactly when that
item's status is `SUCCESS`, and every further disciplined step moves each
item's status only along a §4.1 edge — terminal states are never left and
no state is skipped. -/
theorem C2_lifecycle_invariant :
    (∀ (ops : List QOp) (db' : Db), runGood Db.empty ops = some db' →
        ∀ r ∈ db'.requests, resultCount db' r.id = (if r.status = .SUCCESS then 1 else 0))
  ∧ (∀ (ops : List QOp) (db' : Db) (op : QOp), runGood Db.empty ops = some db' →
        allowedOp db' op = true → StepEdges db'.requests (step db' op).requests) := by
  refine ⟨?_, ?_⟩
  · intro ops db' h
    exact (inv_runGood ops Db.empty db' inv_empty h).resIff
  · intro ops db' op h ha
    exact stepEdges_of_allowed (inv_runGood ops Db.empty db' inv_empty h) ha

/-- An operation sequence the repository functions accept but the claimed
invariant does not survive: `mark_failed` is applied to an item that is
already `SUCCESS` (nothing in the code guards against it). -/
def badOps : List QOp :=
  [.enq "AB123" 0, .deq, .save 1 ⟨some "Active", []⟩, .fail 1 none "boom" .FAILED_TECH]

/-- The database state after running `badOps` from the empty database. -/
def badDb : Db := List.foldl step Db.empty badOps

/-- C2 counterexample: after `badOps` item 1 sits in `FAILED_TECH` with
exactly one linked result row (the iff fails), and the last step left the
terminal state `SUCCESS` — so over arbitrary operation sequences the claim
is false. -/
theorem C2_counterexample :
    statusOf badDb 1 = some .FAILED_TECH ∧ resultCount badDb 1 = 1 ∧
    statusOf (List.foldl step Db.empty (badOps.take 3)) 1 = some .SUCCESS := by
  decide

/-- A disciplined prefix: enqueue one item, dequeue it. -/
def opsW : List QOp := [.enq "AB123" 0, .deq]

/-- The state reached by `opsW`: one `IN_PROGRESS` item, no results. -/
def dbW : Db := ⟨[⟨1, "AB123", .IN_PROGRESS, 1, none, none, 0⟩], [], [], 2, 1⟩

/-- Witness for C2 at the concrete run `opsW`. -/
theorem C2_lifecycle_invariant_witness :
    (∀ r ∈ dbW.requests, resultCount dbW r.id = (if r.status = .SUCCESS then 1 else 0)) ∧
    StepEdges dbW.requests (step dbW (.save 1 ⟨some "Active", []⟩)).requests :=
  ⟨C2_lifecycle_invariant.1 opsW dbW (by decide),
   C2_lifecycle_invariant.2 opsW dbW (.save 1 ⟨some "Active", []⟩) (by decide) (by decide)⟩

/-! ## completeSuccess for the claim-status workflow (C4)

Source: `src/db/repo_claim_status.py` (`save_claim_status_result`, lines
139-199) and the `claim_status_queries` / `claim_status_results` /
`claim_status_reason_codes` tables of `src/db/models.py`.  Unlike
`eligibility_requests`, the `claim_status_queries` table has a
`completed_at` column and the save function assigns it. -/

/-- One row of `claim_status_queries` (`ClaimStatusQuery` in
`src/db/models.py` lines 237-275), restricted to the columns the claim
speaks about; this table has `completed_at`. -/
structure CSQuery where
  id : Nat
  status : Status
  attempts : Nat
  lastErrorCode : Option String
  lastErrorMessage : Option String
  requestedAt : Nat
  completedAt : Option Nat
deriving DecidableEq, Repr

/-- One row of `claim_status_results` (`ClaimStatusResult`). -/
structure CSResultRow where
  id : Nat
  queryId : Nat
  highLevelStatus : String
deriving DecidableEq, Repr

/-- One row of `claim_status_reason_codes` (`ClaimStatusReasonCode`). -/
structure CSReasonRow where
  resultId : Nat
  codeType : String
  code : String
deriving DecidableEq, Repr

/-- The domain `ClaimStatusResult` passed to `save_claim_status_result`:
`high_level_status` may be `None` there, and reason codes are pairs of
code type and code. -/
structure CSDomainResult where
  highLevelStatus : Option String
  reasonCodes : List (String × String)
deriving DecidableEq, Repr

/-- Database state for the claim-status workflow. -/
structure CSDb where
  queries : List CSQuery
  results : List CSResultRow
  reasons : List CSReasonRow
  nextResId : Nat
deriving DecidableEq, Repr

/-- `save_claim_status_result` (`src/db/repo_claim_status.py` lines
139-199): insert the result header (`high_level_status` defaulting to
"UNKNOWN" when the domain value is `None`), insert one reason-code row per
domain reason code, then `UPDATE claim_status_queries SET status=SUCCESS,
completed_at=datetime.now(), last_error_code=NULL, last_error_message=NULL
WHERE id = query_id` — all in the same transaction. -/
def saveClaimStatusResult (db : CSDb) (queryId : Nat) (res : CSDomainResult)
    (now : Nat) : CSDb :=
  { db with
      results := db.results ++ [⟨db.nextResId, queryId, res.highLevelStatus.getD "UNKNOWN"⟩],
      reasons := db.reasons ++ res.reasonCodes.map (fun rc => ⟨db.nextResId, rc.1, rc.2⟩),
      nextResId := db.nextResId + 1,
      queries := db.queries.map (fun q =>
        if q.id = queryId then
          { q with status := .SUCCESS, completedAt := some now,
                   lastErrorCode := none, lastErrorMessage := none }
        else q) }

/-- Number of `claim_status_results` rows linked to query `i`. -/
def csResultCount (db : CSDb) (i : Nat) : Nat :=
  (db.results.filter (fun res => res.queryId = i)).length

/-- The spec §3 `WorkItem` shape, as the claim reads a work-item row:
status, the two error fields and a completion timestamp. -/
structure WorkItemView where
  status : Status
  lastErrorCode : Option String
  lastErrorMessage : Option String
  completedAt : Option Nat
deriving DecidableEq, Repr

/-- The column assignments of the success `UPDATE` in `save_result`
(`src/db/repo_eligibility.py` lines 254-260), read on the spec's
`WorkItem` shape: exactly `status`, `last_error_code` and
`last_error_message` are assigned.  The `eligibility_requests` table has
no `completed_at` column, so the update contains no assignment to it and
the view's `completedAt` is left unchanged. -/
def eligSuccessAssignments (w : WorkItemView) : WorkItemView :=
  { w with status := .SUCCESS, lastErrorCode := none, lastErrorMessage := none }

/-- What the claim's `completeSuccess(id, result)` does to the work-item
row, following the spec's words: set `SUCCESS`, set `completed_at`, clear
the error fields. -/
def completeSuccessSpecRow (w : WorkItemView) (now : Nat) : WorkItemView :=
  { w with status := .SUCCESS, lastErrorCode := none, lastErrorMessage := none,
           completedAt := some now }

/-- C4 counterexample: for the eligibility workflow the success update does
not set `completed_at` (there is no such column), so `save_result` differs
from the claimed behaviour at a concrete row. -/
theorem C4_counterexample :
    eligSuccessAssignments ⟨.IN_PROGRESS, some "E1", some "err", none⟩ ≠
      completeSuccessSpecRow ⟨.IN_PROGRESS, some "E1", some "err", none⟩ 5 ∧
    (eligSuccessAssignments ⟨.IN_PROGRESS, some "E1", some "err", none⟩).completedAt = none := by
  decide

lemma csResultCount_save (db : CSDb) (queryId : Nat) (res : CSDomainResult)
    (now : Nat) :
    csResultCount (saveClaimStatusResult db queryId res now) queryId =
      csResultCount db queryId + 1 := by
  simp [csResultCount, saveClaimStatusResult, List.filter_append]

/-- C4 (amended): `save_claim_status_result` transactionally inserts the
result row (and its reason-code child rows), sets the query's status to
`SUCCESS`, sets `completed_at`, and clears both error fields;
`save_result` for the eligibility workflow does the same except that it
sets no completion timestamp — the `eligibility_requests` table has no
`completed_at` column, and the update assigns nothing to one. -/
theorem C4_completeSuccess :
    (∀ (db : CSDb) (queryId : Nat) (res : CSDomainResult) (now : Nat) (q : CSQuery),
      q ∈ db.queries → q.id = queryId →
        { q with status := .SUCCESS, completedAt := some now,
                 lastErrorCode := none, lastErrorMessage := none }
          ∈ (saveClaimStatusResult db queryId res now).queries ∧
        csResultCount (saveClaimStatusResult db queryId res now) queryId =
          csResultCount db queryId + 1 ∧
        (saveClaimStatusResult db queryId res now).reasons =
          db.reasons ++ res.reasonCodes.map (fun rc => ⟨db.nextResId, rc.1, rc.2⟩))
  ∧ (∀ (db : Db) (i : Nat) (res : DomainResult) (r : Req),
      r ∈ db.requests → r.id = i →
        { r with status := .SUCCESS, lastErrorCode := none, lastErrorMessage := none }
          ∈ (saveResult db i res).requests ∧
        resultCount (saveResult db i res) i = resultCount db i + 1)
  ∧ (∀ (w : WorkItemView), (eligSuccessAssignments w).completedAt = w.completedAt) := by
  refine ⟨?_, ?_, fun _ => rfl⟩
  · intro db queryId res now q hq hid
    refine ⟨?_, csResultCount_save db queryId res now, rfl⟩
    refine List.mem_map.2 ⟨q, hq, ?_⟩
    rw [if_pos hid]
  · intro db i res r hr hid
    constructor
    · refine List.mem_map.2 ⟨r, hr, ?_⟩
      rw [if_pos hid]
    · rw [resultCount_save db i res i]
      simp

/-- Witness for C4 at a concrete claim-status query and eligibility
request. -/
theorem C4_completeSuccess_witness :
    ({ id := 7, status := .SUCCESS, attempts := 1, lastErrorCode := none,
       lastErrorMessage := none, requestedAt := 2, completedAt := some 9 } : CSQuery)
        ∈ (saveClaimStatusResult
            ⟨[⟨7, .IN_PROGRESS, 1, some "E", some "m", 2, none⟩], [], [], 1⟩
            7 ⟨some "FINALIZED", [("CARC", "45")]⟩ 9).queries ∧
    ({ id := 1, memberId := "AB123", status := .SUCCESS, attempts := 1,
       lastErrorCode := none, lastErrorMessage := none, createdAt := 0 } : Req)
        ∈ (saveResult dbW 1 ⟨some "Active", []⟩).requests :=
  ⟨(C4_completeSuccess.1 ⟨[⟨7, .IN_PROGRESS, 1, some "E", some "m", 2, none⟩], [], [], 1⟩
      7 ⟨some "FINALIZED", [("CARC", "45")]⟩ 9
      ⟨7, .IN_PROGRESS, 1, some "E", some "m", 2, none⟩ (by decide) rfl).1,
   (C4_completeSuccess.2.1 dbW 1 ⟨some "Active", []⟩
      ⟨1, "AB123", .IN_PROGRESS, 1, none, none, 0⟩ (by decide) rfl).1⟩

/-! ## Retry and error-classification policy (C3)

Source: the `@retry` decorator on `EligibilityBot.process_request`
(`src/bots/eligibility_bot.py` lines 134-139) and on
`AppealsBot.process_query` (`src/bots/appeals_bot.py` lines 126-131),
both `retry_if_exception_type(TransientError)`, `stop_after_attempt(3)`,
`wait_exponential(multiplier=1, min=2, max=10)`, `reraise=True`; plus the
try/except classification in the body of `process_request`
(lines 163-227).  The decorator comes from the `tenacity` library
(8.x, `wait.py` and the `Retrying` loop): a failing attempt is retried
only when the exception matches the retry predicate, sleeping
`multiplier * 2^(attempt_number - 1)` seconds clamped into `[min, max]`
between attempts, and with `reraise=True` the last exception itself is
re-raised once `stop_after_attempt` is reached. -/

/-- The four classified error kinds of `src/core/errors.py`. -/
inductive ErrKind where
  | validation
  | portalChanged
  | portalBusiness
  | transient
deriving DecidableEq, Repr

/-- Result of one invocation as seen by the retry decorator. -/
inductive Outcome (α : Type) where
  | ok (value : α)
  | err (e : ErrKind)
deriving DecidableEq, Repr

/-- Raw outcome of one run of the body of `process_request`: success, one
of the four classified errors, or any other exception. -/
inductive RawOutcome (α : Type) where
  | ok (value : α)
  | validation
  | portalChanged
  | portalBusiness
  | transient
  | other
deriving DecidableEq, Repr

/-- The try/except of `process_request` (`src/bots/eligibility_bot.py`
lines 220-227): `ValidationError`, `PortalChangedError` and
`PortalBusinessError` are re-raised unchanged; every other exception is
wrapped into a `TransientError`. -/
def classifyBody {α : Type} : RawOutcome α → Outcome α
  | .ok v => .ok v
  | .validation => .err .validation
  | .portalChanged => .err .portalChanged
  | .portalBusiness => .err .portalBusiness
  | .transient => .err .transient
  | .other => .err .transient

/-- tenacity `wait_exponential(multiplier, max, exp_base=2, min)` at
integral arguments: `multiplier * 2^(attempt_number - 1)` clamped into
`[min, max]` (tenacity 8.x `wait.py`). -/
def waitExponential (multiplier lo hi attemptNumber : Nat) : Nat :=
  max lo (min (multiplier * 2 ^ (attemptNumber - 1)) hi)

/-- The arguments of one `@retry` decorator. -/
structure RetryConfig where
  stopAfterAttempt : Nat
  waitMultiplier : Nat
  waitMin : Nat
  waitMax : Nat
  retryTransientOnly : Bool
  reraise : Bool
deriving DecidableEq, Repr

/-- Decorator on `EligibilityBot.process_request`
(`src/bots/eligibility_bot.py` lines 134-139). -/
def eligibilityRetryConfig : RetryConfig := ⟨3, 1, 2, 10, true, true⟩

/-- Decorator on `AppealsBot.process_query`
(`src/bots/appeals_bot.py` lines 126-131). -/
def appealsRetryConfig : RetryConfig := ⟨3, 1, 2, 10, true, true⟩

/-- The tenacity retry loop from attempt number `attempt` with `fuel`
attempts still permitted: run the body, return on success; propagate a
non-`TransientError` immediately; on `TransientError` either re-raise it
(when the attempt budget is exhausted, `reraise=True`) or sleep the
`wait_exponential` delay and try again.  Returns the list of sleep delays,
the number of the last invocation, and the final outcome.  The `fuel = 0`
base case is unreachable when the loop is entered with a positive
`stop_after_attempt`. -/
def retryGo {α : Type} (cfg : RetryConfig) (body : Nat → RawOutcome α) :
    Nat → Nat → List Nat × Nat × Outcome α
  | _, 0 => ([], 0, .err .transient)
  | attempt, fuel + 1 =>
    match classifyBody (body attempt) with
    | .ok v => ([], attempt, .ok v)
    | .err e =>
      if e ≠ .transient then ([], attempt, .err e)
      else if fuel = 0 then ([], attempt, .err e)
      else
        let d := waitExponential cfg.waitMultiplier cfg.waitMin cfg.waitMax attempt
        let rest := retryGo cfg body (attempt + 1) fuel
        (d :: rest.1, rest.2.1, rest.2.2)

/-- One full run of the decorated operation: tenacity counts attempts
from 1 and allows `stop_after_attempt` invocations in total. -/
def retryRun {α : Type} (cfg : RetryConfig) (body : Nat → RawOutcome α) :
    List Nat × Nat × Outcome α :=
  retryGo cfg body 1 cfg.stopAfterAttempt

/-- A body that raises `TransientError` on attempts 1 and 2 and succeeds
on attempt 3 (spec Scenario C). -/
def bodyTwoTransient : Nat → RawOutcome Nat :=
  fun n => if n ≤ 2 then .transient else .ok 42

/-- C3 counterexample: in the two-transients-then-success scenario the two
delays actually slept are 2 s and 2 s — the schedule
`max(2, min(2^(k-1), 10))` clamps both to the 2-second floor — so the
delays are not strictly increasing as the claim states. -/
theorem C3_counterexample :
    (retryRun eligibilityRetryConfig bodyTwoTransient).1 = [2, 2] ∧
    ¬ List.Chain' (· < ·) (retryRun eligibilityRetryConfig bodyTwoTransient).1 := by
  refine ⟨rfl, ?_⟩
  rw [show (retryRun eligibilityRetryConfig bodyTwoTransient).1 = [2, 2] from rfl]
  simp [List.chain'_cons]

/-- C3 (amended): under the configured policy, (i) a body failing with
`TransientError` on attempts 1 and 2 and succeeding on attempt 3 is
invoked exactly 3 times and its success value returned, the two sleeps
drawn from the `wait_exponential` schedule (both equal to the 2-second
floor); (ii) every schedule delay lies in [2 s, 10 s] and the schedule is
non-decreasing in the attempt number; (iii) a body whose first invocation
yields `ValidationError`, `PortalChangedError` or `PortalBusinessError`
propagates that error after exactly one invocation; (iv) a body failing
transiently on every attempt has its `TransientError` re-raised after
exactly 3 invocations (`reraise=True`); (v) the eligibility and appeals
bots configure the identical policy. -/
theorem C3_retry_policy :
    (∀ v : Nat,
      retryRun eligibilityRetryConfig (fun n => if n ≤ 2 then .transient else .ok v) =
        ([waitExponential 1 2 10 1, waitExponential 1 2 10 2], 3, .ok v))
  ∧ (∀ k, 2 ≤ waitExponential 1 2 10 k ∧ waitExponential 1 2 10 k ≤ 10)
  ∧ (∀ j k, j ≤ k → waitExponential 1 2 10 j ≤ waitExponential 1 2 10 k)
  ∧ (∀ (body : Nat → RawOutcome Nat) (e : ErrKind), e ≠ .transient →
      classifyBody (body 1) = .err e →
      retryRun eligibilityRetryConfig body = ([], 1, .err e))
  ∧ (∀ body : Nat → RawOutcome Nat,
      (∀ n, classifyBody (body n) = .err .transient) →
      retryRun eligibilityRetryConfig body =
        ([waitExponential 1 2 10 1, waitExponential 1 2 10 2], 3, .err .transient))
  ∧ eligibilityRetryConfig = appealsRetryConfig := by
  refine ⟨fun v => rfl, ?_, ?_, ?_, ?_, rfl⟩
  · intro k
    constructor
    · exact le_max_left _ _
    · exact max_le (by norm_num) (min_le_right _ _)
  · intro j k hjk
    unfold waitExponential
    exact max_le_max le_rfl
      (min_le_min (Nat.mul_le_mul_left 1 (Nat.pow_le_pow_right (by norm_num) (by omega))) le_rfl)
  · intro body e he hbody
    show retryGo eligibilityRetryConfig body 1 3 = ([], 1, .err e)
    unfold retryGo
    rw [hbody]
    simp [he]
  · intro body hbody
    show retryGo eligibilityRetryConfig body 1 3 = _
    unfold retryGo
    rw [hbody 1]
    simp only [ne_eq, not_true_eq_false, reduceIte]
    unfold retryGo
    rw [hbody 2]
    simp only [ne_eq, not_true_eq_false, reduceIte]
    unfold retryGo
    rw [hbody 3]
    simp
    exact ⟨rfl, rfl⟩

/-- Witness for C3 at concrete bodies: an always-`ValidationError` body is
invoked once and propagates; an always-other-exception body (wrapped into
`TransientError` by `process_request`) is invoked 3 times with the
`TransientError` re-raised; and the first schedule delay is no larger than
the second. -/
theorem C3_retry_policy_witness :
    retryRun eligibilityRetryConfig (fun _ => (RawOutcome.validation : RawOutcome Nat)) =
      ([], 1, .err .validation) ∧
    retryRun eligibilityRetryConfig (fun _ => (RawOutcome.other : RawOutcome Nat)) =
      ([waitExponential 1 2 10 1, waitExponential 1 2 10 2], 3, .err .transient) ∧
    waitExponential 1 2 10 1 ≤ waitExponential 1 2 10 2 :=
  ⟨C3_retry_policy.2.2.2.1 (fun _ => RawOutcome.validation) .validation (by decide) rfl,
   C3_retry_policy.2.2.2.2.1 (fun _ => RawOutcome.other) (fun _ => rfl),
   C3_retry_policy.2.2.1 1 2 (by norm_num)⟩


/-! ## Session/cookie persistence (C7, C10)

Source: `src/core/session_manager.py`, `SessionManager.save_cookies`
(lines 27-56) and `SessionManager.load_cookies` (lines 58-120).  The
browser handle is modelled by the list of cookies it yields
(`driver.get_cookies()`) and, on reload, by the predicate `accepts`
telling which cookies `driver.add_cookie` accepts (a rejected cookie
raises and is counted, lines 110-112).  The cookie file is an
`Option SessionFile`. -/

/-- One browser cookie as serialized by `save_cookies`: name, value, the
optional `expiry` unix timestamp and the optional `sameSite` attribute. -/
structure Cookie where
  name : String
  value : String
  expiry : Option Int
  sameSite : Option String
deriving DecidableEq, Repr

/-- Contents of the cookie file written by `save_cookies` (lines 45-52):
the cookie list, the save timestamp and the metadata dict. -/
structure SessionFile where
  cookies : List Cookie
  savedAt : Nat
  meta : List (String × String)
deriving DecidableEq, Repr

/-- `save_cookies` (lines 27-56): read the browser's cookies; when the
list is empty, log a warning and return without touching the file system
(lines 38-41); otherwise overwrite the cookie file with the cookies, the
current timestamp and the metadata. -/
def save_cookies (file : Option SessionFile) (browserCookies : List Cookie)
    (now : Nat) (meta : List (String × String)) : Option SessionFile :=
  if browserCookies.isEmpty then file
  else some ⟨browserCookies, now, meta⟩

/-- The expiry check of `load_cookies` (lines 97-101):
`datetime.fromtimestamp(cookie.expiry) < datetime.now()`; a cookie with no
`expiry` key is never considered expired. -/
def isExpired (now : Int) (c : Cookie) : Bool :=
  match c.expiry with
  | some t => t < now
  | none => false

/-- The `sameSite` normalization of `load_cookies` (lines 103-106):
a literal `"None"` value is replaced by `"Lax"` before `add_cookie`. -/
def normalizeSameSite (c : Cookie) : Cookie :=
  if c.sameSite = some "None" then { c with sameSite := some "Lax" } else c

/-- The per-cookie loop of `load_cookies` (lines 92-112): an expired
cookie is skipped and counted; otherwise the normalized cookie is passed
to `add_cookie`, incrementing `added_count` on success and
`skipped_count` when the handle rejects it.  Returns the applied cookies
in order together with `added_count` and `skipped_count`. -/
def applyCookies (accepts : Cookie → Bool) (now : Int) :
    List Cookie → List Cookie × Nat × Nat
  | [] => ([], 0, 0)
  | c :: cs =>
    let rest := applyCookies accepts now cs
    if isExpired now c then (rest.1, rest.2.1, rest.2.2 + 1)
    else
      if accepts (normalizeSameSite c) then
        (normalizeSameSite c :: rest.1, rest.2.1 + 1, rest.2.2)
      else (rest.1, rest.2.1, rest.2.2 + 1)

/-- `load_cookies` (lines 58-120): `false` when the file is missing (lines
68-70) or holds no cookies (lines 76-79); otherwise run the per-cookie
loop and return `added_count > 0` (line 116).  Result: the returned
boolean, the cookies applied to the handle, `added_count`,
`skipped_count`. -/
def load_cookies (file : Option SessionFile) (accepts : Cookie → Bool)
    (now : Int) : Bool × List Cookie × Nat × Nat :=
  match file with
  | none => (false, [], 0, 0)
  | some f =>
    if f.cookies.isEmpty then (false, [], 0, 0)
    else
      let res := applyCookies accepts now f.cookies
      (decide (0 < res.2.1), res.1, res.2.1, res.2.2)

lemma applyCookies_spec (accepts : Cookie → Bool) (now : Int) :
    ∀ cs : List Cookie,
      (applyCookies accepts now cs).1 =
        (cs.filter (fun c => !(isExpired now c) && accepts (normalizeSameSite c))).map
          normalizeSameSite ∧
      (applyCookies accepts now cs).2.1 = (applyCookies accepts now cs).1.length ∧
      (applyCookies accepts now cs).2.1 + (applyCookies accepts now cs).2.2 = cs.length := by
  intro cs
  induction cs with
  | nil => exact ⟨rfl, rfl, rfl⟩
  | cons c cs ih =>
    obtain ⟨ih1, ih2, ih3⟩ := ih
    by_cases he : isExpired now c = true
    · simp only [applyCookies, he, reduceIte, List.filter_cons, Bool.not_true,
        Bool.false_and]
      refine ⟨ih1, ih2, ?_⟩
      simp only [List.length_cons]
      omega
    · rw [Bool.not_eq_true] at he
      by_cases ha : accepts (normalizeSameSite c) = true
      · simp only [applyCookies, he, Bool.false_eq_true, reduceIte, ha,
          List.filter_cons, Bool.not_false, Bool.true_and, List.map_cons]
        refine ⟨by rw [ih1], ?_, by simp only [List.length_cons]; omega⟩
        simp only [List.length_cons]
        omega
      · rw [Bool.not_eq_true] at ha
        simp only [applyCookies, he, Bool.false_eq_true, reduceIte, ha,
          List.filter_cons, Bool.not_false, Bool.true_and, List.length_cons]
        refine ⟨ih1, ih2, by omega⟩


lemma isExpired_normalize (t : Int) (c : Cookie) :
    isExpired t (normalizeSameSite c) = isExpired t c := by
  unfold normalizeSameSite
  split <;> rfl

/-- C7: saving a handle state with at least one extractable cookie and
loading it into a new handle reapplies (normalized) every saved
non-expired entry the new handle accepts; nothing expired is ever applied;
`added_count` equals the number of applied entries; every saved entry is
either applied or counted in `skipped_count` (expired and individually
rejected entries are counted, not fatal); and the load returns `true` iff
at least one entry was applied. -/
theorem C7_save_load_roundtrip :
    ∀ (file : Option SessionFile) (cs : List Cookie) (now : Nat)
      (meta : List (String × String)) (accepts : Cookie → Bool) (t : Int),
      cs ≠ [] →
      (∀ c ∈ cs, isExpired t c = false → accepts (normalizeSameSite c) = true →
        normalizeSameSite c ∈
          (load_cookies (save_cookies file cs now meta) accepts t).2.1) ∧
      (∀ x ∈ (load_cookies (save_cookies file cs now meta) accepts t).2.1,
        isExpired t x = false) ∧
      (load_cookies (save_cookies file cs now meta) accepts t).2.2.1 =
        (load_cookies (save_cookies file cs now meta) accepts t).2.1.length ∧
      (load_cookies (save_cookies file cs now meta) accepts t).2.2.1 +
        (load_cookies (save_cookies file cs now meta) accepts t).2.2.2 = cs.length ∧
      ((load_cookies (save_cookies file cs now meta) accepts t).1 = true ↔
        (load_cookies (save_cookies file cs now meta) accepts t).2.1 ≠ []) := by
  intro file cs now meta accepts t hne
  obtain ⟨c0, cs0, rfl⟩ := List.exists_cons_of_ne_nil hne
  have hload : load_cookies (save_cookies file (c0 :: cs0) now meta) accepts t =
      (decide (0 < (applyCookies accepts t (c0 :: cs0)).2.1),
       (applyCookies accepts t (c0 :: cs0)).1,
       (applyCookies accepts t (c0 :: cs0)).2.1,
       (applyCookies accepts t (c0 :: cs0)).2.2) := rfl
  simp only [hload]
  obtain ⟨hs1, hs2, hs3⟩ := applyCookies_spec accepts t (c0 :: cs0)
  refine ⟨?_, ?_, hs2, hs3, ?_⟩
  · intro c hc hexp hacc
    rw [hs1]
    refine List.mem_map.2 ⟨c, List.mem_filter.2 ⟨hc, ?_⟩, rfl⟩
    rw [hexp, hacc]
    rfl
  · intro x hx
    rw [hs1] at hx
    obtain ⟨c, hcf, rfl⟩ := List.mem_map.1 hx
    obtain ⟨_, hcp⟩ := List.mem_filter.1 hcf
    rw [Bool.and_eq_true, Bool.not_eq_true'] at hcp
    rw [isExpired_normalize]
    exact hcp.1
  · rw [hs2]
    simp [List.length_pos]

/-- A handle that rejects exactly the cookie named "bad". -/
def handleAccepts : Cookie → Bool := fun c => c.name != "bad"

/-- A live session cookie (`sameSite` "None", normalized to "Lax" on
reload), expiring at time 100. -/
def cookieA : Cookie := ⟨"sess", "v1", some 100, some "None"⟩

/-- A cookie already expired at load time 50. -/
def cookieB : Cookie := ⟨"old", "v2", some 10, none⟩

/-- A cookie the new handle rejects. -/
def cookieC : Cookie := ⟨"bad", "v3", none, none⟩

/-- Witness for C7 at a concrete save/load roundtrip with one applied, one
expired and one rejected cookie. -/
theorem C7_save_load_roundtrip_witness :
    (load_cookies (save_cookies none [cookieA, cookieB, cookieC] 7 [])
        handleAccepts 50).1 = true ↔
    (load_cookies (save_cookies none [cookieA, cookieB, cookieC] 7 [])
        handleAccepts 50).2.1 ≠ [] :=
  (C7_save_load_roundtrip none [cookieA, cookieB, cookieC] 7 [] handleAccepts 50
    (by decide)).2.2.2.2

/-- C10: when the handle yields zero extractable cookies, `save_cookies`
returns before any write: no cookie file is created and an existing file
is left exactly as it was. -/
theorem C10_empty_save_writes_nothing :
    ∀ (file : Option SessionFile) (now : Nat) (meta : List (String × String)),
      save_cookies file [] now meta = file := by
  intro file now meta
  rfl


/-! ## Session-validity heuristic (C8)

Source: `SessionManager.is_session_valid`
(`src/core/session_manager.py` lines 132-187).  The browser state is the
current URL, whether the login input (`By.ID "userId"`) is present,
whether the dashboard marker (`button[aria-label*='Account']`) is present,
and the page title.  Only the non-throwing path is modelled: the `except`
clause (lines 184-187) handles WebDriver failures, not page states. -/

/-- ASCII lowercasing of one character, as Python `str.lower()` acts on
the ASCII URLs and titles involved. -/
def lowerChar (c : Char) : Char :=
  if 'A' ≤ c && c ≤ 'Z' then Char.ofNat (c.toNat + 32) else c

/-- Python `s.lower()` for ASCII strings. -/
def lowerStr (s : String) : String := ⟨s.data.map lowerChar⟩

/-- Whether `pat` occurs in `hay` as a contiguous run, one list of
characters inside another: the Python `pat in hay` test. -/
def listHasRun (hay pat : List Char) : Bool :=
  match hay with
  | [] => pat.isEmpty
  | _ :: hs =>
    (pat.isPrefixOf hay) || listHasRun hs pat

/-- Python `pat in s` on strings. -/
def containsSub (s pat : String) : Bool := listHasRun s.data pat.data

/-- The browser state `is_session_valid` inspects. -/
structure PageState where
  url : String
  hasLoginInput : Bool
  hasAccountButton : Bool
  title : String
deriving DecidableEq, Repr

/-- `is_session_valid` (lines 132-187): `False` when `'login' in
current_url.lower()`; inside the `'apps.availity.com' in current_url`
branch, `False` when the login input is present, `True` on the dashboard
marker or a non-login page title; every remaining path — including a
login-looking title inside that branch and every URL outside it — falls
through to the default `return True` (lines 180-182). -/
def is_session_valid (p : PageState) : Bool :=
  if containsSub (lowerStr p.url) "login" then false
  else if containsSub p.url "apps.availity.com" &&
          !(containsSub (lowerStr p.url) "login") then
    if p.hasLoginInput then false
    else if p.hasAccountButton then true
    else if !(containsSub (lowerStr p.title) "login") &&
            !(containsSub (lowerStr p.title) "sign in") then true
    else true
  else true

/-- C8 counterexample: on a URL outside `apps.availity.com` the login
input is never consulted — with the login marker present the function
still returns `true`, where the claim demands `false`. -/
theorem C8_counterexample :
    is_session_valid ⟨"https://example.com/portal", true, false, "Portal"⟩ = true ∧
    (⟨"https://example.com/portal", true, false, "Portal"⟩ : PageState).hasLoginInput
      = true := by
  exact ⟨rfl, rfl⟩

/-- C8 (amended): `is_session_valid` returns `false` exactly when the
lowercased URL contains "login", or the URL contains "apps.availity.com"
and the login input is present; in every other state — including a
non-portal URL showing the login input — it returns `true`
(default-permissive). -/
theorem C8_session_valid_heuristic :
    ∀ p : PageState,
      is_session_valid p = false ↔
        (containsSub (lowerStr p.url) "login" = true ∨
          (containsSub p.url "apps.availity.com" = true ∧ p.hasLoginInput = true)) := by
  intro p
  unfold is_session_valid
  cases h1 : containsSub (lowerStr p.url) "login" with
  | true => simp [h1]
  | false =>
    cases h2 : containsSub p.url "apps.availity.com" with
    | false => simp [h1, h2]
    | true =>
      cases h3 : p.hasLoginInput with
      | true => simp [h1, h2, h3]
      | false =>
        cases h4 : p.hasAccountButton with
        | true => simp [h1, h2, h3, h4]
        | false =>
          cases h5 : !(containsSub (lowerStr p.title) "login") &&
              !(containsSub (lowerStr p.title) "sign in") with
          | true => simp [h1, h2, h3, h4, h5]
          | false => simp [h1, h2, h3, h4, h5]


/-! ## Shared WebDriver resource manager (C5, C6)

Source: `src/api/driver_manager.py`, class `WebDriverManager`, and the
keep-alive cycle `_perform_keep_alive` of `src/core/keep_alive.py`.  The
manager state is its attributes; the single usage lock (`_usage_lock`) is
a flag since the claims concern one logical operation's acquire/release
bracket, not the blocking of concurrent callers.  Python exceptions carry
the state at the moment of the raise — an exception does not roll
attribute assignments back. -/

/-- The attributes `WebDriverManager.__init__` assigns (lines 17-23):
`driver`, `headless`, `_initialized`, plus the two locks; `nextHandle`
generates identities for handles `create_driver` returns. -/
structure DMState where
  driver : Option Nat
  headless : Bool
  initialized : Bool
  usageLockHeld : Bool
  nextHandle : Nat
deriving DecidableEq, Repr

/-- Exceptions the manager code can raise: an `AttributeError` from an
attribute lookup, the `RuntimeError` from releasing an unheld
`threading.Lock`, and a failure of `create_driver`. -/
inductive PyExn where
  | attributeError
  | runtimeError
  | webDriverCreateError
deriving DecidableEq, Repr

/-- The attribute names `__init__` (lines 17-23) assigns on the instance;
looking up any other name raises `AttributeError`. -/
def dmAttrNames : List String :=
  ["driver", "headless", "_initialized", "_driver_lock", "_usage_lock"]

/-- `get_driver` (lines 34-64), under `_driver_lock`: create the driver
lazily (recording `headless` and setting `_initialized`), or recreate it
when the liveness probe fails (`alive = false`; the old handle's `quit`
is wrapped in try/except); `createRaises` models `create_driver`
throwing, in which case `self.driver` keeps its previous value. -/
def get_driver (s : DMState) (headless createRaises alive : Bool) :
    Except (PyExn × DMState) (Nat × DMState) :=
  match s.driver with
  | none =>
    if createRaises then .error (.webDriverCreateError, s)
    else .ok (s.nextHandle,
      { s with driver := some s.nextHandle, headless := headless,
               initialized := true, nextHandle := s.nextHandle + 1 })
  | some h =>
    if alive then .ok (h, s)
    else if createRaises then .error (.webDriverCreateError, s)
    else .ok (s.nextHandle,
      { s with driver := some s.nextHandle, nextHandle := s.nextHandle + 1 })

/-- `acquire_driver` (lines 66-81): `self._usage_lock.acquire()` then
`return self.get_driver(headless)`.  There is no try/finally: an
exception from `get_driver` propagates with the usage lock still held.
Modelled for a caller that finds the lock free (otherwise the Python call
blocks first). -/
def acquire_driver (s : DMState) (headless createRaises alive : Bool) :
    Except (PyExn × DMState) (Nat × DMState) :=
  get_driver { s with usageLockHeld := true } headless createRaises alive

/-- `release_driver` (lines 83-90): `self._usage_lock.release()`;
releasing an unheld `threading.Lock` raises `RuntimeError`. -/
def release_driver (s : DMState) : Except (PyExn × DMState) DMState :=
  if s.usageLockHeld then .ok { s with usageLockHeld := false }
  else .error (.runtimeError, s)

/-- What the body of `close` (lines 106-116) intends once inside the
`with` block: quit the driver swallowing errors, then clear `driver` and
`_initialized`. -/
def closeBody (s : DMState) : DMState :=
  { s with driver := none, initialized := false }

/-- `close` (lines 104-116): the method begins `with self._lock:` — but
`_lock` is not among the attributes `__init__` assigns (`dmAttrNames`),
so the lookup raises `AttributeError` before any of the body runs. -/
def close (s : DMState) : Except (PyExn × DMState) DMState :=
  if dmAttrNames.contains "_lock" then .ok (closeBody s)
  else .error (.attributeError, s)

/-- C6: `close()` raises `AttributeError` on every call — `self._lock`
does not exist (`__init__` defines `_driver_lock` and `_usage_lock`
only) — so it neither swallows shutdown errors nor clears the stored
handle and the `_initialized` flag; the intended body would have cleared
them. -/
theorem C6_close_always_raises :
    ∀ s : DMState,
      close s = .error (.attributeError, s) ∧
      (closeBody s).driver = none ∧ (closeBody s).initialized = false := by
  intro s
  exact ⟨rfl, rfl, rfl⟩

/-- `_perform_keep_alive` (`src/core/keep_alive.py` lines 82-126): the
local `driver` starts as `None`; the cycle acquires the shared driver,
exercises the session (navigation or re-login — browser work that does
not touch the manager state, any exception swallowed by the `except`),
and in `finally` releases the lock only when the local `driver` is not
`None`.  When `acquire_driver` itself raises, the local variable was
never assigned, so the cycle swallows the error and never releases. -/
def perform_keep_alive (s : DMState) (createRaises alive : Bool) : DMState :=
  match acquire_driver s false createRaises alive with
  | .error (_, s1) => s1
  | .ok (_, s1) =>
    match release_driver s1 with
    | .ok s2 => s2
    | .error (_, s2) => s2

/-- C5: on the happy path a keep-alive cycle releases the usage lock
exactly once; but when handle creation fails inside `acquire_driver`
(`create_driver` raising on a fresh manager), the lock is left held —
`acquire_driver` has no try/finally and the cycle's `finally` skips the
release because its local `driver` is still `None`.  Every later acquire
then blocks forever. -/
theorem C5_keepalive_lock_leak :
    ∀ s : DMState,
      (perform_keep_alive { s with usageLockHeld := false, driver := none }
          true false).usageLockHeld = true ∧
      (perform_keep_alive { s with usageLockHeld := false, driver := none }
          false false).usageLockHeld = false ∧
      acquire_driver { s with usageLockHeld := false, driver := none } false true false =
        .error (.webDriverCreateError,
          { s with usageLockHeld := true, driver := none }) := by
  intro s
  exact ⟨rfl, rfl, rfl⟩


/-! ## Synchronous API request handler (C9)

Source: `process_claims_sync` (`src/api/server.py` lines 176-288).  The
handler parses the request (the `strptime` calls can raise `ValueError`
on a malformed date string — pydantic validates the fields as plain
strings only), acquires the shared driver, runs the bot inside an inner
try whose `finally` closes the bot, releases the driver and clears the
request id, and returns the success payload; the outer `except Exception`
calls `driver_manager.release_driver()` unconditionally and returns the
`status="FAILED"` payload.  A `.error` result below is an exception
escaping the handler (FastAPI then answers 500, not 200). -/

/-- The structured payload the handler returns: `status` is the
success-path value (`result.submission_status or "PROCESSING"`) or
`"FAILED"` with `errorMessage` set. -/
inductive ApiPayload where
  | success (requestId : String) (status : String)
  | failed (requestId : String) (errorMessage : String)
deriving DecidableEq, Repr

/-- `process_claims_sync`: `dateParseOk` models the `strptime` calls
(lines 182-201) succeeding; `createRaises`/`alive` feed
`acquire_driver`; `botResult` is the outcome of `bot.process_query`
(`.error` carries the exception text).  `bot.close()` on a shared driver
only clears the bot's own references (it never raises), and
`clear_request_id` is state-free, so neither appears in the manager
state. -/
def process_claims_sync (s : DMState) (requestId : String) (dateParseOk : Bool)
    (createRaises alive : Bool) (botResult : Except String String) :
    Except (PyExn × DMState) (ApiPayload × DMState) :=
  if dateParseOk = false then
    match release_driver s with
    | .ok s1 => .ok (.failed requestId "date parse error", s1)
    | .error (e, s1) => .error (e, s1)
  else
    match acquire_driver s false createRaises alive with
    | .error (_, s1) =>
      match release_driver s1 with
      | .ok s2 => .ok (.failed requestId "driver error", s2)
      | .error (e, s2) => .error (e, s2)
    | .ok (_, s1) =>
      match botResult with
      | .ok st =>
        match release_driver s1 with
        | .ok s2 => .ok (.success requestId st, s2)
        | .error (e, s2) => .error (e, s2)
      | .error msg =>
        match release_driver s1 with
        | .ok s2 =>
          match release_driver s2 with
          | .ok s3 => .ok (.failed requestId msg, s3)
          | .error (e, s3) => .error (e, s3)
        | .error (e, s2) => .error (e, s2)

/-- C9: the happy path does return the structured success payload, but a
handler invocation that fails raises out of the handler instead of
returning the FAILED payload: (i) when a date string is malformed the
failure precedes the lock acquisition, and the `except` block's
unconditional `release_driver()` releases an unheld lock — `RuntimeError`
escapes; (ii) when the bot raises, the inner `finally` has already
released the lock, and the `except` block's second `release_driver()`
again raises `RuntimeError`, which escapes. -/
theorem C9_handler_exception_escapes :
    ∀ (s : DMState) (rid st msg : String),
      process_claims_sync { s with usageLockHeld := false, driver := none }
          rid true false true (.ok st) =
        .ok (.success rid st,
          { s with usageLockHeld := false, driver := some s.nextHandle,
                   headless := false, initialized := true,
                   nextHandle := s.nextHandle + 1 }) ∧
      process_claims_sync { s with usageLockHeld := false, driver := none }
          rid false false true (.ok st) =
        .error (.runtimeError, { s with usageLockHeld := false, driver := none }) ∧
      process_claims_sync { s with usageLockHeld := false, driver := none }
          rid true false true (.error msg) =
        .error (.runtimeError,
          { s with usageLockHeld := false, driver := some s.nextHandle,
                   headless := false, initialized := true,
                   nextHandle := s.nextHandle + 1 }) := by
  intro s rid st msg
  exact ⟨rfl, rfl, rfl⟩

end Bots
